import Mathlib

/-!
# Verification of the wellally-schemas record library

Shallow embedding of the Rust crate `wellally` (files `common.rs`,
`health.rs`, `lab_report.rs`, `imaging_report.rs`, `medication.rs`,
`family_health.rs`, `lib.rs`).  Every struct/enum below mirrors one Rust
declaration together with its serde attributes: the wire form is a JSON
tree, `skip_serializing_if = "Option::is_none"` becomes `optField`,
`rename`/`rename_all` become the literal key strings, `#[serde(untagged)]`
becomes the ordered variant matcher, and derived deserialization becomes a
field-by-field reader over the object's key/value list (unknown keys are
ignored, exactly as serde's default).

Modelling conventions for third-party payload types:
* JSON numbers (Rust `f64`) are rationals — finite doubles embed into `ℚ`
  and serde_json's shortest-roundtrip printing is injective on them.
* `chrono::NaiveDate` / `DateTime<Utc>` are identified with their canonical
  wire strings (chrono's serde support formats them to and parses them from
  exactly those strings).
* `i32`/`i64` are `Int`; no claim exercises the width bound.
-/

/-- JSON-like wire value tree (object / array / string / number / boolean /
null), the codomain of every encoder in this development. -/
inductive Json where
  | null
  | bool (b : Bool)
  | num (q : ℚ)
  | str (s : String)
  | arr (elems : List Json)
  | obj (fields : List (String × Json))

/-- Decode-error taxonomy of the spec (§7): `MissingField`, `TypeMismatch`,
`UnknownEnumTag`, `AmbiguousUnion` — all decode-time only. -/
inductive DecodeError where
  | missingField (name : String)
  | typeMismatch (field expected actual : String)
  | unknownEnumTag (field tag : String)
  | ambiguousUnion (shape : String)
  deriving DecidableEq

/-- Constructor name of a JSON value, used to report unmatched shapes. -/
def Json.kindName : Json → String
  | .null => "null"
  | .bool _ => "boolean"
  | .num _ => "number"
  | .str _ => "string"
  | .arr _ => "array"
  | .obj _ => "object"

/-- First-match key lookup in an encoded object's field list. -/
def getField : List (String × Json) → String → Option Json
  | [], _ => none
  | (k', v) :: rest, k => if k' = k then some v else getField rest k

/-- Emit an optional field: absent options contribute no key at all
(serde's `skip_serializing_if = "Option::is_none"` / `skip_serializing_none`). -/
def optField (k : String) : Option Json → List (String × Json)
  | none => []
  | some j => [(k, j)]

/-- Keys present in an encoded object (empty for non-objects). -/
def Json.keys : Json → List String
  | .obj kvs => kvs.map Prod.fst
  | _ => []

def asStr (field : String) : Json → Except DecodeError String
  | .str s => .ok s
  | j => .error (.typeMismatch field "string" j.kindName)

def asNum (field : String) : Json → Except DecodeError ℚ
  | .num q => .ok q
  | j => .error (.typeMismatch field "number" j.kindName)

def asBool (field : String) : Json → Except DecodeError Bool
  | .bool b => .ok b
  | j => .error (.typeMismatch field "boolean" j.kindName)

def asInt (field : String) : Json → Except DecodeError Int
  | .num q => if q.den = 1 then .ok q.num else .error (.typeMismatch field "integer" "number")
  | j => .error (.typeMismatch field "integer" j.kindName)

def asElems (field : String) : Json → Except DecodeError (List Json)
  | .arr es => .ok es
  | j => .error (.typeMismatch field "array" j.kindName)

def asFields (entity : String) : Json → Except DecodeError (List (String × Json))
  | .obj kvs => .ok kvs
  | j => .error (.typeMismatch entity "object" j.kindName)

/-- Require a key to be present (serde: missing mandatory field). -/
def reqField (kvs : List (String × Json)) (k : String) : Except DecodeError Json :=
  match getField kvs k with
  | some j => .ok j
  | none => .error (.missingField k)

def reqOf (dec : Json → Except DecodeError α) (kvs : List (String × Json))
    (k : String) : Except DecodeError α := do
  let j ← reqField kvs k
  dec j

/-- Read an optional field: an absent key is `none`, never an error. -/
def optOf (dec : Json → Except DecodeError α) (kvs : List (String × Json))
    (k : String) : Except DecodeError (Option α) :=
  match getField kvs k with
  | none => .ok none
  | some j => (dec j).map some

def decodeList (dec : Json → Except DecodeError α) :
    List Json → Except DecodeError (List α)
  | [] => .ok []
  | j :: rest => do
      let a ← dec j
      let as ← decodeList dec rest
      pure (a :: as)

def listOf (dec : Json → Except DecodeError α) (field : String) (j : Json) :
    Except DecodeError (List α) := do
  let es ← asElems field j
  decodeList dec es

/-- Decode a closed-set enum from its string tag; an unrecognized tag is the
distinguishable error `UnknownEnumTag`, never a silent default. -/
def decodeEnum (field : String) (fromTag : String → Option α) :
    Json → Except DecodeError α
  | .str s =>
    match fromTag s with
    | some v => .ok v
    | none => .error (.unknownEnumTag field s)
  | j => .error (.typeMismatch field "string" j.kindName)

def encodeStrList (xs : List String) : Json := .arr (xs.map Json.str)

def decodeStrList (field : String) : Json → Except DecodeError (List String) :=
  listOf (asStr field) field

theorem decodeList_map_encode {α : Type} (enc : α → Json)
    (dec : Json → Except DecodeError α) (h : ∀ a, dec (enc a) = .ok a) :
    ∀ xs : List α, decodeList dec (xs.map enc) = .ok xs := by
  intro xs
  induction xs with
  | nil => rfl
  | cons a rest ih =>
      simp [decodeList, h a, ih, bind, Except.bind, pure, Except.pure]

theorem decodeStrList_encode (field : String) (xs : List String) :
    decodeStrList field (encodeStrList xs) = .ok xs := by
  simp [decodeStrList, encodeStrList, listOf, asElems, bind, Except.bind]
  exact decodeList_map_encode Json.str (asStr field) (fun s => rfl) xs

/-- Modelled wire image of `chrono::NaiveDate`: the date is identified with
its canonical `YYYY-MM-DD` string, which chrono prints and re-parses. -/
structure NaiveDate where
  wire : String
  deriving DecidableEq

def NaiveDate.encode (d : NaiveDate) : Json := .str d.wire

def NaiveDate.decode (field : String) : Json → Except DecodeError NaiveDate
  | .str s => .ok ⟨s⟩
  | j => .error (.typeMismatch field "date" j.kindName)

/-- Modelled wire image of `chrono::DateTime<Utc>`: identified with its
RFC 3339 string, which chrono prints and re-parses. -/
structure DateTimeUtc where
  wire : String
  deriving DecidableEq

def DateTimeUtc.encode (d : DateTimeUtc) : Json := .str d.wire

def DateTimeUtc.decode (field : String) : Json → Except DecodeError DateTimeUtc
  | .str s => .ok ⟨s⟩
  | j => .error (.typeMismatch field "timestamp" j.kindName)

/-! ## Enums (`common.rs`, `health.rs`, `lab_report.rs`, `family_health.rs`) -/

/-- `common.rs` `NameUse` — `#[serde(rename_all = "lowercase")]`. -/
inductive NameUse where
  | Official | Usual | Nickname | Anonymous | Old | Maiden
  deriving DecidableEq

def NameUse.tag : NameUse → String
  | .Official => "official"
  | .Usual => "usual"
  | .Nickname => "nickname"
  | .Anonymous => "anonymous"
  | .Old => "old"
  | .Maiden => "maiden"

def NameUse.fromTag (s : String) : Option NameUse :=
  if s = "official" then some .Official
  else if s = "usual" then some .Usual
  else if s = "nickname" then some .Nickname
  else if s = "anonymous" then some .Anonymous
  else if s = "old" then some .Old
  else if s = "maiden" then some .Maiden
  else none

def NameUse.encode (x : NameUse) : Json := .str x.tag

def NameUse.decode (field : String) : Json → Except DecodeError NameUse :=
  decodeEnum field NameUse.fromTag

theorem NameUse_decode_encode (field : String) (x : NameUse) :
    NameUse.decode field (NameUse.encode x) = .ok x := by
  cases x <;> rfl

/-- `common.rs` `ContactSystem` — `rename_all = "lowercase"`. -/
inductive ContactSystem where
  | Phone | Email
  deriving DecidableEq

def ContactSystem.tag : ContactSystem → String
  | .Phone => "phone"
  | .Email => "email"

def ContactSystem.fromTag (s : String) : Option ContactSystem :=
  if s = "phone" then some .Phone
  else if s = "email" then some .Email
  else none

def ContactSystem.encode (x : ContactSystem) : Json := .str x.tag

def ContactSystem.decode (field : String) : Json → Except DecodeError ContactSystem :=
  decodeEnum field ContactSystem.fromTag

theorem ContactSystem_decode_encode (field : String) (x : ContactSystem) :
    ContactSystem.decode field (ContactSystem.encode x) = .ok x := by
  cases x <;> rfl

/-- `common.rs` `ContactUse` — `rename_all = "lowercase"`. -/
inductive ContactUse where
  | Home | Work | Mobile
  deriving DecidableEq

def ContactUse.tag : ContactUse → String
  | .Home => "home"
  | .Work => "work"
  | .Mobile => "mobile"

def ContactUse.fromTag (s : String) : Option ContactUse :=
  if s = "home" then some .Home
  else if s = "work" then some .Work
  else if s = "mobile" then some .Mobile
  else none

def ContactUse.encode (x : ContactUse) : Json := .str x.tag

def ContactUse.decode (field : String) : Json → Except DecodeError ContactUse :=
  decodeEnum field ContactUse.fromTag

theorem ContactUse_decode_encode (field : String) (x : ContactUse) :
    ContactUse.decode field (ContactUse.encode x) = .ok x := by
  cases x <;> rfl

/-- `common.rs` `ModalityCode` — NO `rename_all` attribute, so serde uses the
variant names verbatim: `CT`, `MR`, `US`, `XR`, `PT`. -/
inductive ModalityCode where
  | CT | MR | US | XR | PT
  deriving DecidableEq

def ModalityCode.tag : ModalityCode → String
  | .CT => "CT"
  | .MR => "MR"
  | .US => "US"
  | .XR => "XR"
  | .PT => "PT"

def ModalityCode.fromTag (s : String) : Option ModalityCode :=
  if s = "CT" then some .CT
  else if s = "MR" then some .MR
  else if s = "US" then some .US
  else if s = "XR" then some .XR
  else if s = "PT" then some .PT
  else none

def ModalityCode.encode (x : ModalityCode) : Json := .str x.tag

def ModalityCode.decode (field : String) : Json → Except DecodeError ModalityCode :=
  decodeEnum field ModalityCode.fromTag

theorem ModalityCode_decode_encode (field : String) (x : ModalityCode) :
    ModalityCode.decode field (ModalityCode.encode x) = .ok x := by
  cases x <;> rfl

/-- `health.rs` `Gender` — `rename_all = "lowercase"`. -/
inductive Gender where
  | Male | Female | Other | Unknown
  deriving DecidableEq

def Gender.tag : Gender → String
  | .Male => "male"
  | .Female => "female"
  | .Other => "other"
  | .Unknown => "unknown"

def Gender.fromTag (s : String) : Option Gender :=
  if s = "male" then some .Male
  else if s = "female" then some .Female
  else if s = "other" then some .Other
  else if s = "unknown" then some .Unknown
  else none

def Gender.encode (x : Gender) : Json := .str x.tag

def Gender.decode (field : String) : Json → Except DecodeError Gender :=
  decodeEnum field Gender.fromTag

theorem Gender_decode_encode (field : String) (x : Gender) :
    Gender.decode field (Gender.encode x) = .ok x := by
  cases x <;> rfl

/-- `lab_report.rs` `Interpretation` — NO `rename_all` attribute, so serde
uses the variant names verbatim: `N`, `L`, `H`, `A`. -/
inductive Interpretation where
  | N | L | H | A
  deriving DecidableEq

def Interpretation.tag : Interpretation → String
  | .N => "N"
  | .L => "L"
  | .H => "H"
  | .A => "A"

def Interpretation.fromTag (s : String) : Option Interpretation :=
  if s = "N" then some .N
  else if s = "L" then some .L
  else if s = "H" then some .H
  else if s = "A" then some .A
  else none

def Interpretation.encode (x : Interpretation) : Json := .str x.tag

def Interpretation.decode (field : String) : Json → Except DecodeError Interpretation :=
  decodeEnum field Interpretation.fromTag

theorem Interpretation_decode_encode (field : String) (x : Interpretation) :
    Interpretation.decode field (Interpretation.encode x) = .ok x := by
  cases x <;> rfl

/-- `family_health.rs` `RelationToProband` — `rename_all = "lowercase"` and
an explicit `rename = "self"` on `Self_`. -/
inductive RelationToProband where
  | Self_ | Mother | Father | Sibling | Child | Grandparent | Grandchild
  | Aunt | Uncle | Cousin | Other
  deriving DecidableEq

def RelationToProband.tag : RelationToProband → String
  | .Self_ => "self"
  | .Mother => "mother"
  | .Father => "father"
  | .Sibling => "sibling"
  | .Child => "child"
  | .Grandparent => "grandparent"
  | .Grandchild => "grandchild"
  | .Aunt => "aunt"
  | .Uncle => "uncle"
  | .Cousin => "cousin"
  | .Other => "other"

def RelationToProband.fromTag (s : String) : Option RelationToProband :=
  if s = "self" then some .Self_
  else if s = "mother" then some .Mother
  else if s = "father" then some .Father
  else if s = "sibling" then some .Sibling
  else if s = "child" then some .Child
  else if s = "grandparent" then some .Grandparent
  else if s = "grandchild" then some .Grandchild
  else if s = "aunt" then some .Aunt
  else if s = "uncle" then some .Uncle
  else if s = "cousin" then some .Cousin
  else if s = "other" then some .Other
  else none

def RelationToProband.encode (x : RelationToProband) : Json := .str x.tag

def RelationToProband.decode (field : String) :
    Json → Except DecodeError RelationToProband :=
  decodeEnum field RelationToProband.fromTag

theorem RelationToProband_decode_encode (field : String) (x : RelationToProband) :
    RelationToProband.decode field (RelationToProband.encode x) = .ok x := by
  cases x <;> rfl

/-- `family_health.rs` `Sex` — `rename_all = "lowercase"`. -/
inductive Sex where
  | Male | Female | Other | Unknown
  deriving DecidableEq

def Sex.tag : Sex → String
  | .Male => "male"
  | .Female => "female"
  | .Other => "other"
  | .Unknown => "unknown"

def Sex.fromTag (s : String) : Option Sex :=
  if s = "male" then some .Male
  else if s = "female" then some .Female
  else if s = "other" then some .Other
  else if s = "unknown" then some .Unknown
  else none

def Sex.encode (x : Sex) : Json := .str x.tag

def Sex.decode (field : String) : Json → Except DecodeError Sex :=
  decodeEnum field Sex.fromTag

theorem Sex_decode_encode (field : String) (x : Sex) :
    Sex.decode field (Sex.encode x) = .ok x := by
  cases x <;> rfl

/-! ## Common value types (`common.rs`) -/

/-- `common.rs` `Coding`: system and code mandatory, display optional. -/
structure Coding where
  system : String
  code : String
  display : Option String
  deriving DecidableEq

def Coding.encode (x : Coding) : Json :=
  .obj ([("system", .str x.system), ("code", .str x.code)]
    ++ optField "display" (x.display.map Json.str))

def Coding.decode (j : Json) : Except DecodeError Coding := do
  let kvs ← asFields "Coding" j
  let system ← reqOf (asStr "system") kvs "system"
  let code ← reqOf (asStr "code") kvs "code"
  let display ← optOf (asStr "display") kvs "display"
  pure { system := system, code := code, display := display }

theorem Coding_roundtrip (x : Coding) : Coding.decode (Coding.encode x) = .ok x := by
  obtain ⟨s, c, d⟩ := x
  cases d <;>
    simp [Coding.encode, Coding.decode, asFields, reqOf, optOf, reqField, getField,
      optField, asStr, bind, Except.bind, Except.map, pure, Except.pure]

theorem listOf_encode {α : Type} (enc : α → Json)
    (dec : Json → Except DecodeError α) (h : ∀ a, dec (enc a) = .ok a)
    (field : String) (xs : List α) :
    listOf dec field (Json.arr (xs.map enc)) = .ok xs := by
  simp [listOf, asElems, bind, Except.bind]
  exact decodeList_map_encode enc dec h xs

/-- `common.rs` `CodeableConcept`: coding list mandatory, text optional. -/
structure CodeableConcept where
  coding : List Coding
  text : Option String
  deriving DecidableEq

def CodeableConcept.encode (x : CodeableConcept) : Json :=
  .obj ([("coding", .arr (x.coding.map Coding.encode))]
    ++ optField "text" (x.text.map Json.str))

def CodeableConcept.decode (j : Json) : Except DecodeError CodeableConcept := do
  let kvs ← asFields "CodeableConcept" j
  let coding ← reqOf (listOf Coding.decode "coding") kvs "coding"
  let text ← optOf (asStr "text") kvs "text"
  pure { coding := coding, text := text }

theorem CodeableConcept_roundtrip (x : CodeableConcept) :
    CodeableConcept.decode (CodeableConcept.encode x) = .ok x := by
  obtain ⟨cs, t⟩ := x
  cases t <;>
    simp [CodeableConcept.encode, CodeableConcept.decode, asFields, reqOf, optOf,
      reqField, getField, optField, asStr, bind, Except.bind, Except.map, pure,
      Except.pure, listOf_encode Coding.encode Coding.decode Coding_roundtrip]

/-- `common.rs` `Quantity`: both `value` (f64, modelled as `ℚ`) and `unit`
mandatory. -/
structure Quantity where
  value : ℚ
  unit : String
  deriving DecidableEq

def Quantity.encode (x : Quantity) : Json :=
  .obj [("value", .num x.value), ("unit", .str x.unit)]

def Quantity.decode (j : Json) : Except DecodeError Quantity := do
  let kvs ← asFields "Quantity" j
  let value ← reqOf (asNum "value") kvs "value"
  let unit ← reqOf (asStr "unit") kvs "unit"
  pure { value := value, unit := unit }

theorem Quantity_roundtrip (x : Quantity) : Quantity.decode (Quantity.encode x) = .ok x := by
  obtain ⟨v, u⟩ := x
  simp [Quantity.encode, Quantity.decode, asFields, reqOf, reqField, getField,
    asNum, asStr, bind, Except.bind, pure, Except.pure]

/-- `common.rs` `ReferenceRange`: all three fields optional. -/
structure ReferenceRange where
  low : Option Quantity
  high : Option Quantity
  text : Option String
  deriving DecidableEq

def ReferenceRange.encode (x : ReferenceRange) : Json :=
  .obj (optField "low" (x.low.map Quantity.encode)
    ++ optField "high" (x.high.map Quantity.encode)
    ++ optField "text" (x.text.map Json.str))

def ReferenceRange.decode (j : Json) : Except DecodeError ReferenceRange := do
  let kvs ← asFields "ReferenceRange" j
  let low ← optOf Quantity.decode kvs "low"
  let high ← optOf Quantity.decode kvs "high"
  let text ← optOf (asStr "text") kvs "text"
  pure { low := low, high := high, text := text }

theorem ReferenceRange_roundtrip (x : ReferenceRange) :
    ReferenceRange.decode (ReferenceRange.encode x) = .ok x := by
  obtain ⟨l, h, t⟩ := x
  cases l <;> cases h <;> cases t <;>
    simp [ReferenceRange.encode, ReferenceRange.decode, asFields, optOf, getField,
      optField, asStr, bind, Except.bind, Except.map, pure, Except.pure,
      Quantity_roundtrip]

/-- `common.rs` `Period`: optional start and end dates (`end` is a Lean
keyword; the Rust field is `end`, wire key `"end"`). -/
structure Period where
  start : Option NaiveDate
  end_ : Option NaiveDate
  deriving DecidableEq

def Period.encode (x : Period) : Json :=
  .obj (optField "start" (x.start.map NaiveDate.encode)
    ++ optField "end" (x.end_.map NaiveDate.encode))

def Period.decode (j : Json) : Except DecodeError Period := do
  let kvs ← asFields "Period" j
  let start ← optOf (NaiveDate.decode "start") kvs "start"
  let end_ ← optOf (NaiveDate.decode "end") kvs "end"
  pure { start := start, end_ := end_ }

theorem Period_roundtrip (x : Period) : Period.decode (Period.encode x) = .ok x := by
  obtain ⟨s, e⟩ := x
  cases s <;> cases e <;>
    simp [Period.encode, Period.decode, asFields, optOf, getField, optField,
      NaiveDate.encode, NaiveDate.decode, bind, Except.bind, Except.map, pure,
      Except.pure]

/-- `common.rs` `Identifier`: the Rust field `r#type` avoids the reserved
word and still uses wire key `"type"`. -/
structure Identifier where
  system : String
  value : String
  type : Option CodeableConcept
  period : Option Period
  deriving DecidableEq

def Identifier.encode (x : Identifier) : Json :=
  .obj ([("system", .str x.system), ("value", .str x.value)]
    ++ optField "type" (x.type.map CodeableConcept.encode)
    ++ optField "period" (x.period.map Period.encode))

def Identifier.decode (j : Json) : Except DecodeError Identifier := do
  let kvs ← asFields "Identifier" j
  let system ← reqOf (asStr "system") kvs "system"
  let value ← reqOf (asStr "value") kvs "value"
  let type ← optOf CodeableConcept.decode kvs "type"
  let period ← optOf Period.decode kvs "period"
  pure { system := system, value := value, type := type, period := period }

theorem Identifier_roundtrip (x : Identifier) :
    Identifier.decode (Identifier.encode x) = .ok x := by
  obtain ⟨s, v, t, p⟩ := x
  cases t <;> cases p <;>
    simp [Identifier.encode, Identifier.decode, asFields, reqOf, optOf, reqField,
      getField, optField, asStr, bind, Except.bind, Except.map, pure, Except.pure,
      CodeableConcept_roundtrip, Period_roundtrip]

/-- `common.rs` `HumanName`: the Rust field `r#use` decodes/encodes under the
wire key `"use"`; `prefix`/`suffix` are Lean-reserved so carry a trailing
underscore here, with wire keys `"prefix"`/`"suffix"`. -/
structure HumanName where
  family : String
  given : List String
  use_ : Option NameUse
  prefix_ : Option (List String)
  suffix_ : Option (List String)
  deriving DecidableEq

def HumanName.encode (x : HumanName) : Json :=
  .obj ([("family", .str x.family), ("given", encodeStrList x.given)]
    ++ optField "use" (x.use_.map NameUse.encode)
    ++ optField "prefix" (x.prefix_.map encodeStrList)
    ++ optField "suffix" (x.suffix_.map encodeStrList))

def HumanName.decode (j : Json) : Except DecodeError HumanName := do
  let kvs ← asFields "HumanName" j
  let family ← reqOf (asStr "family") kvs "family"
  let given ← reqOf (decodeStrList "given") kvs "given"
  let u ← optOf (NameUse.decode "use") kvs "use"
  let p ← optOf (decodeStrList "prefix") kvs "prefix"
  let suf ← optOf (decodeStrList "suffix") kvs "suffix"
  pure { family := family, given := given, use_ := u, prefix_ := p, suffix_ := suf }

theorem HumanName_roundtrip (x : HumanName) :
    HumanName.decode (HumanName.encode x) = .ok x := by
  obtain ⟨f, g, u, p, suf⟩ := x
  cases u <;> cases p <;> cases suf <;>
    simp [HumanName.encode, HumanName.decode, asFields, reqOf, optOf, reqField,
      getField, optField, asStr, bind, Except.bind, Except.map, pure, Except.pure,
      decodeStrList_encode, NameUse_decode_encode]

/-- `common.rs` `ContactPoint`: system and value mandatory, use optional
(Rust field `r#use`, wire key `"use"`). -/
structure ContactPoint where
  system : ContactSystem
  value : String
  use_ : Option ContactUse
  deriving DecidableEq

def ContactPoint.encode (x : ContactPoint) : Json :=
  .obj ([("system", ContactSystem.encode x.system), ("value", .str x.value)]
    ++ optField "use" (x.use_.map ContactUse.encode))

def ContactPoint.decode (j : Json) : Except DecodeError ContactPoint := do
  let kvs ← asFields "ContactPoint" j
  let system ← reqOf (ContactSystem.decode "system") kvs "system"
  let value ← reqOf (asStr "value") kvs "value"
  let u ← optOf (ContactUse.decode "use") kvs "use"
  pure { system := system, value := value, use_ := u }

theorem ContactPoint_roundtrip (x : ContactPoint) :
    ContactPoint.decode (ContactPoint.encode x) = .ok x := by
  obtain ⟨s, v, u⟩ := x
  cases u <;>
    simp [ContactPoint.encode, ContactPoint.decode, asFields, reqOf, optOf,
      reqField, getField, optField, asStr, bind, Except.bind, Except.map, pure,
      Except.pure, ContactSystem_decode_encode, ContactUse_decode_encode]

/-- `common.rs` `Address`: every field optional; `postal_code` renames to
wire key `"postalCode"`. -/
structure Address where
  line : Option (List String)
  city : Option String
  state : Option String
  postal_code : Option String
  country : Option String
  deriving DecidableEq

def Address.encode (x : Address) : Json :=
  .obj (optField "line" (x.line.map encodeStrList)
    ++ optField "city" (x.city.map Json.str)
    ++ optField "state" (x.state.map Json.str)
    ++ optField "postalCode" (x.postal_code.map Json.str)
    ++ optField "country" (x.country.map Json.str))

def Address.decode (j : Json) : Except DecodeError Address := do
  let kvs ← asFields "Address" j
  let line ← optOf (decodeStrList "line") kvs "line"
  let city ← optOf (asStr "city") kvs "city"
  let state ← optOf (asStr "state") kvs "state"
  let postal_code ← optOf (asStr "postalCode") kvs "postalCode"
  let country ← optOf (asStr "country") kvs "country"
  pure { line := line, city := city, state := state, postal_code := postal_code,
         country := country }

theorem Address_roundtrip (x : Address) : Address.decode (Address.encode x) = .ok x := by
  obtain ⟨l, c, s, p, co⟩ := x
  cases l <;> cases c <;> cases s <;> cases p <;> cases co <;>
    simp [Address.encode, Address.decode, asFields, optOf, getField, optField,
      asStr, bind, Except.bind, Except.map, pure, Except.pure, decodeStrList_encode]

/-- `common.rs` `Modality`: system and code mandatory, display optional. -/
structure Modality where
  system : String
  code : ModalityCode
  display : Option String
  deriving DecidableEq

def Modality.encode (x : Modality) : Json :=
  .obj ([("system", .str x.system), ("code", ModalityCode.encode x.code)]
    ++ optField "display" (x.display.map Json.str))

def Modality.decode (j : Json) : Except DecodeError Modality := do
  let kvs ← asFields "Modality" j
  let system ← reqOf (asStr "system") kvs "system"
  let code ← reqOf (ModalityCode.decode "code") kvs "code"
  let display ← optOf (asStr "display") kvs "display"
  pure { system := system, code := code, display := display }

theorem Modality_roundtrip (x : Modality) : Modality.decode (Modality.encode x) = .ok x := by
  obtain ⟨s, c, d⟩ := x
  cases d <;>
    simp [Modality.encode, Modality.decode, asFields, reqOf, optOf, reqField,
      getField, optField, asStr, bind, Except.bind, Except.map, pure, Except.pure,
      ModalityCode_decode_encode]

/-- `common.rs` `Route`: system and code mandatory, display optional. -/
structure Route where
  system : String
  code : String
  display : Option String
  deriving DecidableEq

def Route.encode (x : Route) : Json :=
  .obj ([("system", .str x.system), ("code", .str x.code)]
    ++ optField "display" (x.display.map Json.str))

def Route.decode (j : Json) : Except DecodeError Route := do
  let kvs ← asFields "Route" j
  let system ← reqOf (asStr "system") kvs "system"
  let code ← reqOf (asStr "code") kvs "code"
  let display ← optOf (asStr "display") kvs "display"
  pure { system := system, code := code, display := display }

theorem Route_roundtrip (x : Route) : Route.decode (Route.encode x) = .ok x := by
  obtain ⟨s, c, d⟩ := x
  cases d <;>
    simp [Route.encode, Route.decode, asFields, reqOf, optOf, reqField, getField,
      optField, asStr, bind, Except.bind, Except.map, pure, Except.pure]

/-! ## Personal health record (`health.rs`) -/

/-- `health.rs` `ClinicalSummary`: all fields optional; `blood_type` and
`primary_care_provider` rename to `bloodType` / `primaryCareProvider`. -/
structure ClinicalSummary where
  conditions : Option (List CodeableConcept)
  allergies : Option (List CodeableConcept)
  blood_type : Option String
  primary_care_provider : Option String
  deriving DecidableEq

def ClinicalSummary.encode (x : ClinicalSummary) : Json :=
  .obj (optField "conditions" (x.conditions.map (fun cs => .arr (cs.map CodeableConcept.encode)))
    ++ optField "allergies" (x.allergies.map (fun cs => .arr (cs.map CodeableConcept.encode)))
    ++ optField "bloodType" (x.blood_type.map Json.str)
    ++ optField "primaryCareProvider" (x.primary_care_provider.map Json.str))

def ClinicalSummary.decode (j : Json) : Except DecodeError ClinicalSummary := do
  let kvs ← asFields "ClinicalSummary" j
  let conditions ← optOf (listOf CodeableConcept.decode "conditions") kvs "conditions"
  let allergies ← optOf (listOf CodeableConcept.decode "allergies") kvs "allergies"
  let blood_type ← optOf (asStr "bloodType") kvs "bloodType"
  let primary_care_provider ← optOf (asStr "primaryCareProvider") kvs "primaryCareProvider"
  pure { conditions := conditions, allergies := allergies, blood_type := blood_type,
         primary_care_provider := primary_care_provider }

theorem ClinicalSummary_roundtrip (x : ClinicalSummary) :
    ClinicalSummary.decode (ClinicalSummary.encode x) = .ok x := by
  obtain ⟨c, a, b, p⟩ := x
  cases c <;> cases a <;> cases b <;> cases p <;>
    simp [ClinicalSummary.encode, ClinicalSummary.decode, asFields, optOf, getField,
      optField, asStr, bind, Except.bind, Except.map, pure, Except.pure,
      listOf_encode CodeableConcept.encode CodeableConcept.decode CodeableConcept_roundtrip]

/-- `health.rs` `Person`: `id`, `resourceType`, `name`, `birthDate` mandatory
(`resource_type` is a plain `String` — the constant `"Person"` is NOT
enforced on decode); seven optional fields. -/
structure Person where
  id : String
  resource_type : String
  name : List HumanName
  birth_date : NaiveDate
  identifier : Option (List Identifier)
  gender : Option Gender
  telecom : Option (List ContactPoint)
  address : Option (List Address)
  marital_status : Option CodeableConcept
  language : Option (List String)
  clinical_summary : Option ClinicalSummary
  deriving DecidableEq

def Person.encode (x : Person) : Json :=
  .obj ([("id", .str x.id), ("resourceType", .str x.resource_type),
         ("name", .arr (x.name.map HumanName.encode)),
         ("birthDate", NaiveDate.encode x.birth_date)]
    ++ optField "identifier" (x.identifier.map (fun xs => .arr (xs.map Identifier.encode)))
    ++ optField "gender" (x.gender.map Gender.encode)
    ++ optField "telecom" (x.telecom.map (fun xs => .arr (xs.map ContactPoint.encode)))
    ++ optField "address" (x.address.map (fun xs => .arr (xs.map Address.encode)))
    ++ optField "maritalStatus" (x.marital_status.map CodeableConcept.encode)
    ++ optField "language" (x.language.map encodeStrList)
    ++ optField "clinicalSummary" (x.clinical_summary.map ClinicalSummary.encode))

def Person.decode (j : Json) : Except DecodeError Person := do
  let kvs ← asFields "Person" j
  let id ← reqOf (asStr "id") kvs "id"
  let resource_type ← reqOf (asStr "resourceType") kvs "resourceType"
  let name ← reqOf (listOf HumanName.decode "name") kvs "name"
  let birth_date ← reqOf (NaiveDate.decode "birthDate") kvs "birthDate"
  let identifier ← optOf (listOf Identifier.decode "identifier") kvs "identifier"
  let gender ← optOf (Gender.decode "gender") kvs "gender"
  let telecom ← optOf (listOf ContactPoint.decode "telecom") kvs "telecom"
  let address ← optOf (listOf Address.decode "address") kvs "address"
  let marital_status ← optOf CodeableConcept.decode kvs "maritalStatus"
  let language ← optOf (decodeStrList "language") kvs "language"
  let clinical_summary ← optOf ClinicalSummary.decode kvs "clinicalSummary"
  pure { id := id, resource_type := resource_type, name := name,
         birth_date := birth_date, identifier := identifier, gender := gender,
         telecom := telecom, address := address, marital_status := marital_status,
         language := language, clinical_summary := clinical_summary }

theorem Person_roundtrip (x : Person) : Person.decode (Person.encode x) = .ok x := by
  obtain ⟨i, rt, n, bd, idf, g, t, a, m, l, c⟩ := x
  cases idf <;> cases g <;> cases t <;> cases a <;> cases m <;> cases l <;> cases c <;>
    simp [Person.encode, Person.decode, asFields, reqOf, optOf, reqField, getField,
      optField, asStr, NaiveDate.encode, NaiveDate.decode, bind, Except.bind,
      Except.map, pure, Except.pure, decodeStrList_encode, Gender_decode_encode,
      CodeableConcept_roundtrip, ClinicalSummary_roundtrip,
      listOf_encode HumanName.encode HumanName.decode HumanName_roundtrip,
      listOf_encode Identifier.encode Identifier.decode Identifier_roundtrip,
      listOf_encode ContactPoint.encode ContactPoint.decode ContactPoint_roundtrip,
      listOf_encode Address.encode Address.decode Address_roundtrip]

/-! ## Lab report (`lab_report.rs`) -/

/-- `lab_report.rs` `Facility`: both fields optional. -/
structure Facility where
  id : Option String
  name : Option String
  deriving DecidableEq

def Facility.encode (x : Facility) : Json :=
  .obj (optField "id" (x.id.map Json.str) ++ optField "name" (x.name.map Json.str))

def Facility.decode (j : Json) : Except DecodeError Facility := do
  let kvs ← asFields "Facility" j
  let id ← optOf (asStr "id") kvs "id"
  let name ← optOf (asStr "name") kvs "name"
  pure { id := id, name := name }

theorem Facility_roundtrip (x : Facility) : Facility.decode (Facility.encode x) = .ok x := by
  obtain ⟨i, n⟩ := x
  cases i <;> cases n <;>
    simp [Facility.encode, Facility.decode, asFields, optOf, getField, optField,
      asStr, bind, Except.bind, Except.map, pure, Except.pure]

/-- `lab_report.rs` `Specimen`: `specimen_type` renames to wire key `"type"`,
`collected_at` to `"collectedAt"`; both optional. -/
structure Specimen where
  specimen_type : Option Coding
  collected_at : Option DateTimeUtc
  deriving DecidableEq

def Specimen.encode (x : Specimen) : Json :=
  .obj (optField "type" (x.specimen_type.map Coding.encode)
    ++ optField "collectedAt" (x.collected_at.map DateTimeUtc.encode))

def Specimen.decode (j : Json) : Except DecodeError Specimen := do
  let kvs ← asFields "Specimen" j
  let specimen_type ← optOf Coding.decode kvs "type"
  let collected_at ← optOf (DateTimeUtc.decode "collectedAt") kvs "collectedAt"
  pure { specimen_type := specimen_type, collected_at := collected_at }

theorem Specimen_roundtrip (x : Specimen) : Specimen.decode (Specimen.encode x) = .ok x := by
  obtain ⟨t, c⟩ := x
  cases t <;> cases c <;>
    simp [Specimen.encode, Specimen.decode, asFields, optOf, getField, optField,
      DateTimeUtc.encode, DateTimeUtc.decode, bind, Except.bind, Except.map, pure,
      Except.pure, Coding_roundtrip]

/-- `lab_report.rs` `LabValue` — `#[serde(untagged)]` union over `Quantity`,
`CodeableConcept` and `String`, in that declaration order. -/
inductive LabValue where
  | Quantity (q : Quantity)
  | Concept (c : CodeableConcept)
  | String (s : String)
  deriving DecidableEq

/-- Encoding an untagged union writes the held variant with no discriminator. -/
def LabValue.encode : LabValue → Json
  | .Quantity q => Quantity.encode q
  | .Concept c => CodeableConcept.encode c
  | .String s => .str s

/-- Untagged decoding: try each variant in declaration order; if no variant
matches, the spec's `AmbiguousUnion` error reports the unmatched shape. -/
def LabValue.decode (j : Json) : Except DecodeError LabValue :=
  match Quantity.decode j with
  | .ok q => .ok (.Quantity q)
  | .error _ =>
    match CodeableConcept.decode j with
    | .ok c => .ok (.Concept c)
    | .error _ =>
      match j with
      | .str s => .ok (.String s)
      | _ => .error (.ambiguousUnion j.kindName)

theorem LabValue_roundtrip (x : LabValue) : LabValue.decode (LabValue.encode x) = .ok x := by
  cases x with
  | Quantity q =>
      simp [LabValue.encode, LabValue.decode, Quantity_roundtrip]
  | Concept c =>
      obtain ⟨cs, t⟩ := c
      have hq : Quantity.decode (CodeableConcept.encode ⟨cs, t⟩) =
          .error (.missingField "value") := by
        cases t <;>
          simp [CodeableConcept.encode, Quantity.decode, asFields, reqOf, reqField,
            getField, optField, bind, Except.bind]
      simp [LabValue.encode, LabValue.decode, hq, CodeableConcept_roundtrip]
  | String s =>
      simp [LabValue.encode, LabValue.decode, Quantity.decode, CodeableConcept.decode,
        asFields, bind, Except.bind]

/-- `lab_report.rs` `LabResult`: `code` and `value` mandatory;
`reference_range` renames to `referenceRange`. -/
structure LabResult where
  code : CodeableConcept
  value : LabValue
  reference_range : Option ReferenceRange
  interpretation : Option Interpretation
  method : Option CodeableConcept
  deriving DecidableEq

def LabResult.encode (x : LabResult) : Json :=
  .obj ([("code", CodeableConcept.encode x.code), ("value", LabValue.encode x.value)]
    ++ optField "referenceRange" (x.reference_range.map ReferenceRange.encode)
    ++ optField "interpretation" (x.interpretation.map Interpretation.encode)
    ++ optField "method" (x.method.map CodeableConcept.encode))

def LabResult.decode (j : Json) : Except DecodeError LabResult := do
  let kvs ← asFields "LabResult" j
  let code ← reqOf CodeableConcept.decode kvs "code"
  let value ← reqOf LabValue.decode kvs "value"
  let reference_range ← optOf ReferenceRange.decode kvs "referenceRange"
  let interpretation ← optOf (Interpretation.decode "interpretation") kvs "interpretation"
  let method ← optOf CodeableConcept.decode kvs "method"
  pure { code := code, value := value, reference_range := reference_range,
         interpretation := interpretation, method := method }

theorem LabResult_roundtrip (x : LabResult) : LabResult.decode (LabResult.encode x) = .ok x := by
  obtain ⟨c, v, r, i, m⟩ := x
  cases r <;> cases i <;> cases m <;>
    simp [LabResult.encode, LabResult.decode, asFields, reqOf, optOf, reqField,
      getField, optField, bind, Except.bind, Except.map, pure, Except.pure,
      CodeableConcept_roundtrip, LabValue_roundtrip, ReferenceRange_roundtrip,
      Interpretation_decode_encode]

/-- `lab_report.rs` `LabReport`: `id`, `patientId`, `issuedAt`, `results`
mandatory; facility, panel, specimen optional. -/
structure LabReport where
  id : String
  patient_id : String
  issued_at : DateTimeUtc
  results : List LabResult
  facility : Option Facility
  panel : Option CodeableConcept
  specimen : Option Specimen
  deriving DecidableEq

def LabReport.encode (x : LabReport) : Json :=
  .obj ([("id", .str x.id), ("patientId", .str x.patient_id),
         ("issuedAt", DateTimeUtc.encode x.issued_at),
         ("results", .arr (x.results.map LabResult.encode))]
    ++ optField "facility" (x.facility.map Facility.encode)
    ++ optField "panel" (x.panel.map CodeableConcept.encode)
    ++ optField "specimen" (x.specimen.map Specimen.encode))

def LabReport.decode (j : Json) : Except DecodeError LabReport := do
  let kvs ← asFields "LabReport" j
  let id ← reqOf (asStr "id") kvs "id"
  let patient_id ← reqOf (asStr "patientId") kvs "patientId"
  let issued_at ← reqOf (DateTimeUtc.decode "issuedAt") kvs "issuedAt"
  let results ← reqOf (listOf LabResult.decode "results") kvs "results"
  let facility ← optOf Facility.decode kvs "facility"
  let panel ← optOf CodeableConcept.decode kvs "panel"
  let specimen ← optOf Specimen.decode kvs "specimen"
  pure { id := id, patient_id := patient_id, issued_at := issued_at,
         results := results, facility := facility, panel := panel,
         specimen := specimen }

theorem LabReport_roundtrip (x : LabReport) : LabReport.decode (LabReport.encode x) = .ok x := by
  obtain ⟨i, p, t, rs, f, pa, sp⟩ := x
  cases f <;> cases pa <;> cases sp <;>
    simp [LabReport.encode, LabReport.decode, asFields, reqOf, optOf, reqField,
      getField, optField, asStr, DateTimeUtc.encode, DateTimeUtc.decode, bind,
      Except.bind, Except.map, pure, Except.pure, Facility_roundtrip,
      CodeableConcept_roundtrip, Specimen_roundtrip,
      listOf_encode LabResult.encode LabResult.decode LabResult_roundtrip]

/-! ## Imaging report (`imaging_report.rs`) -/

/-- `imaging_report.rs` `Performer`: all three fields optional. -/
structure Performer where
  id : Option String
  name : Option String
  role : Option String
  deriving DecidableEq

def Performer.encode (x : Performer) : Json :=
  .obj (optField "id" (x.id.map Json.str) ++ optField "name" (x.name.map Json.str)
    ++ optField "role" (x.role.map Json.str))

def Performer.decode (j : Json) : Except DecodeError Performer := do
  let kvs ← asFields "Performer" j
  let id ← optOf (asStr "id") kvs "id"
  let name ← optOf (asStr "name") kvs "name"
  let role ← optOf (asStr "role") kvs "role"
  pure { id := id, name := name, role := role }

theorem Performer_roundtrip (x : Performer) : Performer.decode (Performer.encode x) = .ok x := by
  obtain ⟨i, n, r⟩ := x
  cases i <;> cases n <;> cases r <;>
    simp [Performer.encode, Performer.decode, asFields, optOf, getField, optField,
      asStr, bind, Except.bind, Except.map, pure, Except.pure]

/-- `imaging_report.rs` `RadiationDose`: both optional f64 fields, renamed to
wire keys `"ctdiVol_mGy"` and `"dlp_mGy_cm"`. -/
structure RadiationDose where
  ctdi_vol_mgy : Option ℚ
  dlp_mgy_cm : Option ℚ
  deriving DecidableEq

def RadiationDose.encode (x : RadiationDose) : Json :=
  .obj (optField "ctdiVol_mGy" (x.ctdi_vol_mgy.map Json.num)
    ++ optField "dlp_mGy_cm" (x.dlp_mgy_cm.map Json.num))

def RadiationDose.decode (j : Json) : Except DecodeError RadiationDose := do
  let kvs ← asFields "RadiationDose" j
  let ctdi_vol_mgy ← optOf (asNum "ctdiVol_mGy") kvs "ctdiVol_mGy"
  let dlp_mgy_cm ← optOf (asNum "dlp_mGy_cm") kvs "dlp_mGy_cm"
  pure { ctdi_vol_mgy := ctdi_vol_mgy, dlp_mgy_cm := dlp_mgy_cm }

theorem RadiationDose_roundtrip (x : RadiationDose) :
    RadiationDose.decode (RadiationDose.encode x) = .ok x := by
  obtain ⟨c, d⟩ := x
  cases c <;> cases d <;>
    simp [RadiationDose.encode, RadiationDose.decode, asFields, optOf, getField,
      optField, asNum, bind, Except.bind, Except.map, pure, Except.pure]

/-- `imaging_report.rs` `Attachment`: both optional; `attachment_type`
renames to wire key `"type"`. -/
structure Attachment where
  url : Option String
  attachment_type : Option String
  deriving DecidableEq

def Attachment.encode (x : Attachment) : Json :=
  .obj (optField "url" (x.url.map Json.str)
    ++ optField "type" (x.attachment_type.map Json.str))

def Attachment.decode (j : Json) : Except DecodeError Attachment := do
  let kvs ← asFields "Attachment" j
  let url ← optOf (asStr "url") kvs "url"
  let attachment_type ← optOf (asStr "type") kvs "type"
  pure { url := url, attachment_type := attachment_type }

theorem Attachment_roundtrip (x : Attachment) :
    Attachment.decode (Attachment.encode x) = .ok x := by
  obtain ⟨u, t⟩ := x
  cases u <;> cases t <;>
    simp [Attachment.encode, Attachment.decode, asFields, optOf, getField,
      optField, asStr, bind, Except.bind, Except.map, pure, Except.pure]

/-- `imaging_report.rs` `ImagingReport`: five mandatory fields, six optional. -/
structure ImagingReport where
  id : String
  patient_id : String
  modality : Modality
  body_site : Coding
  reported_at : DateTimeUtc
  study_instance_uid : Option String
  performer : Option Performer
  findings : Option (List String)
  impression : Option String
  radiation_dose : Option RadiationDose
  attachments : Option (List Attachment)
  deriving DecidableEq

def ImagingReport.encode (x : ImagingReport) : Json :=
  .obj ([("id", .str x.id), ("patientId", .str x.patient_id),
         ("modality", Modality.encode x.modality),
         ("bodySite", Coding.encode x.body_site),
         ("reportedAt", DateTimeUtc.encode x.reported_at)]
    ++ optField "studyInstanceUid" (x.study_instance_uid.map Json.str)
    ++ optField "performer" (x.performer.map Performer.encode)
    ++ optField "findings" (x.findings.map encodeStrList)
    ++ optField "impression" (x.impression.map Json.str)
    ++ optField "radiationDose" (x.radiation_dose.map RadiationDose.encode)
    ++ optField "attachments" (x.attachments.map (fun xs => .arr (xs.map Attachment.encode))))

def ImagingReport.decode (j : Json) : Except DecodeError ImagingReport := do
  let kvs ← asFields "ImagingReport" j
  let id ← reqOf (asStr "id") kvs "id"
  let patient_id ← reqOf (asStr "patientId") kvs "patientId"
  let modality ← reqOf Modality.decode kvs "modality"
  let body_site ← reqOf Coding.decode kvs "bodySite"
  let reported_at ← reqOf (DateTimeUtc.decode "reportedAt") kvs "reportedAt"
  let study_instance_uid ← optOf (asStr "studyInstanceUid") kvs "studyInstanceUid"
  let performer ← optOf Performer.decode kvs "performer"
  let findings ← optOf (decodeStrList "findings") kvs "findings"
  let impression ← optOf (asStr "impression") kvs "impression"
  let radiation_dose ← optOf RadiationDose.decode kvs "radiationDose"
  let attachments ← optOf (listOf Attachment.decode "attachments") kvs "attachments"
  pure { id := id, patient_id := patient_id, modality := modality,
         body_site := body_site, reported_at := reported_at,
         study_instance_uid := study_instance_uid, performer := performer,
         findings := findings, impression := impression,
         radiation_dose := radiation_dose, attachments := attachments }

theorem ImagingReport_roundtrip (x : ImagingReport) :
    ImagingReport.decode (ImagingReport.encode x) = .ok x := by
  obtain ⟨i, p, m, b, r, s, pf, f, im, rd, a⟩ := x
  cases s <;> cases pf <;> cases f <;> cases im <;> cases rd <;> cases a <;>
    simp [ImagingReport.encode, ImagingReport.decode, asFields, reqOf, optOf,
      reqField, getField, optField, asStr, DateTimeUtc.encode, DateTimeUtc.decode,
      bind, Except.bind, Except.map, pure, Except.pure, Modality_roundtrip,
      Coding_roundtrip, Performer_roundtrip, RadiationDose_roundtrip,
      decodeStrList_encode,
      listOf_encode Attachment.encode Attachment.decode Attachment_roundtrip]

/-! ## Medication record (`medication.rs`) -/

/-- `medication.rs` `Dosage`: both fields mandatory (`value` is f64). -/
structure Dosage where
  value : ℚ
  unit : String
  deriving DecidableEq

def Dosage.encode (x : Dosage) : Json :=
  .obj [("value", .num x.value), ("unit", .str x.unit)]

def Dosage.decode (j : Json) : Except DecodeError Dosage := do
  let kvs ← asFields "Dosage" j
  let value ← reqOf (asNum "value") kvs "value"
  let unit ← reqOf (asStr "unit") kvs "unit"
  pure { value := value, unit := unit }

theorem Dosage_roundtrip (x : Dosage) : Dosage.decode (Dosage.encode x) = .ok x := by
  obtain ⟨v, u⟩ := x
  simp [Dosage.encode, Dosage.decode, asFields, reqOf, reqField, getField, asNum,
    asStr, bind, Except.bind, pure, Except.pure]

/-- `medication.rs` `MedicationRecord`: six mandatory fields, six optional;
`duration_days` is `i32`, modelled as `Int`. -/
structure MedicationRecord where
  id : String
  patient_id : String
  medication : Coding
  dosage : Dosage
  route : Route
  start_date : NaiveDate
  form : Option Coding
  frequency : Option String
  duration_days : Option Int
  end_date : Option NaiveDate
  indication : Option CodeableConcept
  instructions : Option String
  deriving DecidableEq

def MedicationRecord.encode (x : MedicationRecord) : Json :=
  .obj ([("id", .str x.id), ("patientId", .str x.patient_id),
         ("medication", Coding.encode x.medication),
         ("dosage", Dosage.encode x.dosage),
         ("route", Route.encode x.route),
         ("startDate", NaiveDate.encode x.start_date)]
    ++ optField "form" (x.form.map Coding.encode)
    ++ optField "frequency" (x.frequency.map Json.str)
    ++ optField "durationDays" (x.duration_days.map (fun n => .num (n : ℚ)))
    ++ optField "endDate" (x.end_date.map NaiveDate.encode)
    ++ optField "indication" (x.indication.map CodeableConcept.encode)
    ++ optField "instructions" (x.instructions.map Json.str))

def MedicationRecord.decode (j : Json) : Except DecodeError MedicationRecord := do
  let kvs ← asFields "MedicationRecord" j
  let id ← reqOf (asStr "id") kvs "id"
  let patient_id ← reqOf (asStr "patientId") kvs "patientId"
  let medication ← reqOf Coding.decode kvs "medication"
  let dosage ← reqOf Dosage.decode kvs "dosage"
  let route ← reqOf Route.decode kvs "route"
  let start_date ← reqOf (NaiveDate.decode "startDate") kvs "startDate"
  let form ← optOf Coding.decode kvs "form"
  let frequency ← optOf (asStr "frequency") kvs "frequency"
  let duration_days ← optOf (asInt "durationDays") kvs "durationDays"
  let end_date ← optOf (NaiveDate.decode "endDate") kvs "endDate"
  let indication ← optOf CodeableConcept.decode kvs "indication"
  let instructions ← optOf (asStr "instructions") kvs "instructions"
  pure { id := id, patient_id := patient_id, medication := medication,
         dosage := dosage, route := route, start_date := start_date,
         form := form, frequency := frequency, duration_days := duration_days,
         end_date := end_date, indication := indication,
         instructions := instructions }

theorem MedicationRecord_roundtrip (x : MedicationRecord) :
    MedicationRecord.decode (MedicationRecord.encode x) = .ok x := by
  obtain ⟨i, p, m, d, r, sd, f, fr, du, e, ind, ins⟩ := x
  cases f <;> cases fr <;> cases du <;> cases e <;> cases ind <;> cases ins <;>
    simp [MedicationRecord.encode, MedicationRecord.decode, asFields, reqOf, optOf,
      reqField, getField, optField, asStr, asInt, NaiveDate.encode, NaiveDate.decode,
      bind, Except.bind, Except.map, pure, Except.pure, Coding_roundtrip,
      Dosage_roundtrip, Route_roundtrip, CodeableConcept_roundtrip]

/-! ## Family health tree (`family_health.rs`) -/

/-- `family_health.rs` `FamilyMember`: `id` and `relationToProband`
mandatory; `birth_year` is `i32`, modelled as `Int`. -/
structure FamilyMember where
  id : String
  relation_to_proband : RelationToProband
  sex : Option Sex
  birth_year : Option Int
  deceased : Option Bool
  conditions : Option (List CodeableConcept)
  deriving DecidableEq

def FamilyMember.encode (x : FamilyMember) : Json :=
  .obj ([("id", .str x.id),
         ("relationToProband", RelationToProband.encode x.relation_to_proband)]
    ++ optField "sex" (x.sex.map Sex.encode)
    ++ optField "birthYear" (x.birth_year.map (fun n => .num (n : ℚ)))
    ++ optField "deceased" (x.deceased.map Json.bool)
    ++ optField "conditions" (x.conditions.map (fun cs => .arr (cs.map CodeableConcept.encode))))

def FamilyMember.decode (j : Json) : Except DecodeError FamilyMember := do
  let kvs ← asFields "FamilyMember" j
  let id ← reqOf (asStr "id") kvs "id"
  let relation_to_proband ← reqOf (RelationToProband.decode "relationToProband") kvs "relationToProband"
  let sex ← optOf (Sex.decode "sex") kvs "sex"
  let birth_year ← optOf (asInt "birthYear") kvs "birthYear"
  let deceased ← optOf (asBool "deceased") kvs "deceased"
  let conditions ← optOf (listOf CodeableConcept.decode "conditions") kvs "conditions"
  pure { id := id, relation_to_proband := relation_to_proband, sex := sex,
         birth_year := birth_year, deceased := deceased, conditions := conditions }

theorem FamilyMember_roundtrip (x : FamilyMember) :
    FamilyMember.decode (FamilyMember.encode x) = .ok x := by
  obtain ⟨i, r, s, b, d, c⟩ := x
  cases s <;> cases b <;> cases d <;> cases c <;>
    simp [FamilyMember.encode, FamilyMember.decode, asFields, reqOf, optOf,
      reqField, getField, optField, asStr, asInt, asBool, bind, Except.bind,
      Except.map, pure, Except.pure, RelationToProband_decode_encode,
      Sex_decode_encode,
      listOf_encode CodeableConcept.encode CodeableConcept.decode CodeableConcept_roundtrip]

/-- `family_health.rs` `FamilyHealthTree`: both fields mandatory;
`proband_id` renames to `probandId`. -/
structure FamilyHealthTree where
  proband_id : String
  members : List FamilyMember
  deriving DecidableEq

def FamilyHealthTree.encode (x : FamilyHealthTree) : Json :=
  .obj [("probandId", .str x.proband_id),
        ("members", .arr (x.members.map FamilyMember.encode))]

def FamilyHealthTree.decode (j : Json) : Except DecodeError FamilyHealthTree := do
  let kvs ← asFields "FamilyHealthTree" j
  let proband_id ← reqOf (asStr "probandId") kvs "probandId"
  let members ← reqOf (listOf FamilyMember.decode "members") kvs "members"
  pure { proband_id := proband_id, members := members }

theorem FamilyHealthTree_roundtrip (x : FamilyHealthTree) :
    FamilyHealthTree.decode (FamilyHealthTree.encode x) = .ok x := by
  obtain ⟨p, ms⟩ := x
  simp [FamilyHealthTree.encode, FamilyHealthTree.decode, asFields, reqOf,
    reqField, getField, asStr, bind, Except.bind, pure, Except.pure,
    listOf_encode FamilyMember.encode FamilyMember.decode FamilyMember_roundtrip]

/-! ## Legacy duplicate schemas (`lib.rs`)

`lib.rs` glob-re-exports every module and then redefines many of the same
names with loose types (raw `String` for enums and dates).  Rust name
resolution lets an explicitly defined item shadow a glob import, so at the
crate root these are the definitions in force.  They use
`#[skip_serializing_none]`; the `use_` fields carry NO `rename` attribute,
so their wire key is the literal `"use_"`. -/

namespace Legacy

/-- `lib.rs` `Period` (loose: dates as raw strings). -/
structure Period where
  start : Option String
  end_ : Option String
  deriving DecidableEq

def Period.decode (j : Json) : Except DecodeError Period := do
  let kvs ← asFields "Period" j
  let start ← optOf (asStr "start") kvs "start"
  let end_ ← optOf (asStr "end") kvs "end"
  pure { start := start, end_ := end_ }

/-- `lib.rs` `HumanName` (loose): field `use_` has no serde rename, so it
encodes and decodes under the literal key `"use_"`. -/
structure HumanName where
  family : String
  given : List String
  use_ : Option String
  prefix_ : Option (List String)
  suffix_ : Option (List String)
  deriving DecidableEq

def HumanName.encode (x : HumanName) : Json :=
  .obj ([("family", .str x.family), ("given", encodeStrList x.given)]
    ++ optField "use_" (x.use_.map Json.str)
    ++ optField "prefix" (x.prefix_.map encodeStrList)
    ++ optField "suffix" (x.suffix_.map encodeStrList))

def HumanName.decode (j : Json) : Except DecodeError HumanName := do
  let kvs ← asFields "HumanName" j
  let family ← reqOf (asStr "family") kvs "family"
  let given ← reqOf (decodeStrList "given") kvs "given"
  let u ← optOf (asStr "use_") kvs "use_"
  let p ← optOf (decodeStrList "prefix") kvs "prefix"
  let suf ← optOf (decodeStrList "suffix") kvs "suffix"
  pure { family := family, given := given, use_ := u, prefix_ := p, suffix_ := suf }

/-- `lib.rs` `ContactPoint` (loose): `system` is optional, `use_` has no
rename, so its wire key is `"use_"`. -/
structure ContactPoint where
  system : Option String
  value : String
  use_ : Option String
  deriving DecidableEq

def ContactPoint.encode (x : ContactPoint) : Json :=
  .obj (optField "system" (x.system.map Json.str)
    ++ [("value", .str x.value)]
    ++ optField "use_" (x.use_.map Json.str))

def ContactPoint.decode (j : Json) : Except DecodeError ContactPoint := do
  let kvs ← asFields "ContactPoint" j
  let system ← optOf (asStr "system") kvs "system"
  let value ← reqOf (asStr "value") kvs "value"
  let u ← optOf (asStr "use_") kvs "use_"
  pure { system := system, value := value, use_ := u }

/-- `lib.rs` `Identifier` (loose): `id_type` renames to wire key `"type"`. -/
structure Identifier where
  system : String
  value : String
  id_type : Option CodeableConcept
  period : Option Period
  deriving DecidableEq

def Identifier.decode (j : Json) : Except DecodeError Identifier := do
  let kvs ← asFields "Identifier" j
  let system ← reqOf (asStr "system") kvs "system"
  let value ← reqOf (asStr "value") kvs "value"
  let id_type ← optOf CodeableConcept.decode kvs "type"
  let period ← optOf Period.decode kvs "period"
  pure { system := system, value := value, id_type := id_type, period := period }

/-- `lib.rs` `Address` (loose): field `postalCode` is already camelCase. -/
structure Address where
  line : Option (List String)
  city : Option String
  state : Option String
  postalCode : Option String
  country : Option String
  deriving DecidableEq

def Address.decode (j : Json) : Except DecodeError Address := do
  let kvs ← asFields "Address" j
  let line ← optOf (decodeStrList "line") kvs "line"
  let city ← optOf (asStr "city") kvs "city"
  let state ← optOf (asStr "state") kvs "state"
  let postalCode ← optOf (asStr "postalCode") kvs "postalCode"
  let country ← optOf (asStr "country") kvs "country"
  pure { line := line, city := city, state := state, postalCode := postalCode,
         country := country }

/-- `lib.rs` `ClinicalSummary` (loose). -/
structure ClinicalSummary where
  conditions : Option (List CodeableConcept)
  allergies : Option (List CodeableConcept)
  bloodType : Option String
  primaryCareProvider : Option String
  deriving DecidableEq

def ClinicalSummary.decode (j : Json) : Except DecodeError ClinicalSummary := do
  let kvs ← asFields "ClinicalSummary" j
  let conditions ← optOf (listOf CodeableConcept.decode "conditions") kvs "conditions"
  let allergies ← optOf (listOf CodeableConcept.decode "allergies") kvs "allergies"
  let bloodType ← optOf (asStr "bloodType") kvs "bloodType"
  let primaryCareProvider ← optOf (asStr "primaryCareProvider") kvs "primaryCareProvider"
  pure { conditions := conditions, allergies := allergies, bloodType := bloodType,
         primaryCareProvider := primaryCareProvider }

/-- `lib.rs` `default_resource_type`: the serde `default` used by
`HealthPerson.resourceType` when the key is absent. -/
def default_resource_type : String := "Person"

/-- `lib.rs` `HealthPerson` (loose person record): `birthDate` and `gender`
are raw strings; `resourceType` carries
`#[serde(default = "default_resource_type")]`, so an absent key decodes to
`"Person"` instead of failing. -/
structure HealthPerson where
  id : String
  name : List HumanName
  birthDate : String
  resourceType : String
  identifier : Option (List Identifier)
  gender : Option String
  telecom : Option (List ContactPoint)
  address : Option (List Address)
  maritalStatus : Option CodeableConcept
  language : Option (List String)
  clinicalSummary : Option ClinicalSummary
  deriving DecidableEq

def HealthPerson.decode (j : Json) : Except DecodeError HealthPerson := do
  let kvs ← asFields "HealthPerson" j
  let id ← reqOf (asStr "id") kvs "id"
  let name ← reqOf (listOf HumanName.decode "name") kvs "name"
  let birthDate ← reqOf (asStr "birthDate") kvs "birthDate"
  let resourceType ←
    match getField kvs "resourceType" with
    | none => pure default_resource_type
    | some v => asStr "resourceType" v
  let identifier ← optOf (listOf Identifier.decode "identifier") kvs "identifier"
  let gender ← optOf (asStr "gender") kvs "gender"
  let telecom ← optOf (listOf ContactPoint.decode "telecom") kvs "telecom"
  let address ← optOf (listOf Address.decode "address") kvs "address"
  let maritalStatus ← optOf CodeableConcept.decode kvs "maritalStatus"
  let language ← optOf (decodeStrList "language") kvs "language"
  let clinicalSummary ← optOf ClinicalSummary.decode kvs "clinicalSummary"
  pure { id := id, name := name, birthDate := birthDate,
         resourceType := resourceType, identifier := identifier, gender := gender,
         telecom := telecom, address := address, maritalStatus := maritalStatus,
         language := language, clinicalSummary := clinicalSummary }

end Legacy

/-! ## Helper lemmas for the claims -/

theorem mem_keys_optField (s k : String) (v : Option Json) :
    s ∈ (optField k v).map Prod.fst ↔ s = k ∧ v.isSome := by
  cases v <;> simp [optField]

theorem pair_notMem_optField (s k : String) (j : Json) (v : Option Json)
    (h : s ≠ k) : (s, j) ∉ optField k v := by
  cases v <;> simp [optField, h]

theorem pair_notMem_optField_none (s k : String) (j : Json) :
    (s, j) ∉ optField k none := by
  simp [optField]

theorem getField_none_of_fresh (extra : List (String × Json)) (k : String)
    (h : ∀ p ∈ extra, p.1 ≠ k) : getField extra k = none := by
  induction extra with
  | nil => rfl
  | cons p rest ih =>
      obtain ⟨k', v⟩ := p
      have hp : k' ≠ k := h (k', v) (by simp)
      simp only [getField, if_neg hp]
      exact ih (fun q hq => h q (by simp [hq]))

theorem getField_append_fresh (kvs extra : List (String × Json)) (k : String)
    (h : ∀ p ∈ extra, p.1 ≠ k) : getField (kvs ++ extra) k = getField kvs k := by
  induction kvs with
  | nil =>
      simpa [getField] using getField_none_of_fresh extra k h
  | cons p rest ih =>
      obtain ⟨k', v⟩ := p
      by_cases hk : k' = k
      · simp [getField, hk]
      · simpa [getField, hk] using ih

theorem reqOf_append_fresh {α : Type} (dec : Json → Except DecodeError α)
    (kvs extra : List (String × Json)) (k : String)
    (h : ∀ p ∈ extra, p.1 ≠ k) :
    reqOf dec (kvs ++ extra) k = reqOf dec kvs k := by
  simp [reqOf, reqField, getField_append_fresh kvs extra k h]

theorem optOf_append_fresh {α : Type} (dec : Json → Except DecodeError α)
    (kvs extra : List (String × Json)) (k : String)
    (h : ∀ p ∈ extra, p.1 ≠ k) :
    optOf dec (kvs ++ extra) k = optOf dec kvs k := by
  simp [optOf, getField_append_fresh kvs extra k h]

/-- All wire keys any of the five strict entity decoders ever looks up. -/
def strictEntityKeys : List String :=
  ["id", "resourceType", "name", "birthDate", "identifier", "gender", "telecom",
   "address", "maritalStatus", "language", "clinicalSummary",
   "patientId", "issuedAt", "results", "facility", "panel", "specimen",
   "modality", "bodySite", "reportedAt", "studyInstanceUid", "performer",
   "findings", "impression", "radiationDose", "attachments",
   "medication", "dosage", "route", "startDate", "form", "frequency",
   "durationDays", "endDate", "indication", "instructions",
   "probandId", "members"]

/-! ## Claims -/

/-- C1: for every entity type (Person, LabReport, ImagingReport,
MedicationRecord, FamilyHealthTree) and every structurally valid in-memory
value `x` — optional fields present or absent, every enum variant, every
lab-value union variant — decoding the encoding of `x` returns `x`. -/
theorem roundtrip_all_entities :
    (∀ x : Person, Person.decode (Person.encode x) = .ok x) ∧
    (∀ x : LabReport, LabReport.decode (LabReport.encode x) = .ok x) ∧
    (∀ x : ImagingReport, ImagingReport.decode (ImagingReport.encode x) = .ok x) ∧
    (∀ x : MedicationRecord, MedicationRecord.decode (MedicationRecord.encode x) = .ok x) ∧
    (∀ x : FamilyHealthTree, FamilyHealthTree.decode (FamilyHealthTree.encode x) = .ok x) :=
  ⟨Person_roundtrip, LabReport_roundtrip, ImagingReport_roundtrip,
   MedicationRecord_roundtrip, FamilyHealthTree_roundtrip⟩

/-- C2: untagged lab-value decoding follows the ordered structural dispatch:
`{"value": 5.0, "unit": "mg"}` decodes to the Quantity variant,
`{"coding":[{"system":"http://loinc.org","code":"1234-5"}]}` to
CodeableConcept, the plain string `"Positive"` to the string variant, and
`{"foo": 1}` fails with `AmbiguousUnion` (naming the unmatched shape). -/
theorem lab_value_union_dispatch :
    LabValue.decode (.obj [("value", .num 5), ("unit", .str "mg")])
        = .ok (.Quantity ⟨5, "mg"⟩) ∧
    LabValue.decode (.obj [("coding",
        .arr [.obj [("system", .str "http://loinc.org"), ("code", .str "1234-5")]])])
        = .ok (.Concept ⟨[⟨"http://loinc.org", "1234-5", none⟩], none⟩) ∧
    LabValue.decode (.str "Positive") = .ok (.String "Positive") ∧
    LabValue.decode (.obj [("foo", .num 1)]) = .error (.ambiguousUnion "object") :=
  ⟨rfl, rfl, rfl, rfl⟩

/-- C3: encoding is a total function for every entity type — each encoder
has type `T → Json` with no error outcome at all (the taxonomy's errors are
decode-time only), and always produces a JSON object; in particular values
whose `Quantity` or `Dosage` fields hold any (finite) 64-bit float encode
successfully. -/
theorem encode_total_all_entities :
    (∀ x : Person, ∃ kvs, Person.encode x = .obj kvs) ∧
    (∀ x : LabReport, ∃ kvs, LabReport.encode x = .obj kvs) ∧
    (∀ x : ImagingReport, ∃ kvs, ImagingReport.encode x = .obj kvs) ∧
    (∀ x : MedicationRecord, ∃ kvs, MedicationRecord.encode x = .obj kvs) ∧
    (∀ x : FamilyHealthTree, ∃ kvs, FamilyHealthTree.encode x = .obj kvs) ∧
    (∀ x : Quantity, ∃ kvs, Quantity.encode x = .obj kvs) ∧
    (∀ x : Dosage, ∃ kvs, Dosage.encode x = .obj kvs) :=
  ⟨fun _ => ⟨_, rfl⟩, fun _ => ⟨_, rfl⟩, fun _ => ⟨_, rfl⟩, fun _ => ⟨_, rfl⟩,
   fun _ => ⟨_, rfl⟩, fun _ => ⟨_, rfl⟩, fun _ => ⟨_, rfl⟩⟩

/-- C4: decoding a Person whose input lacks the `birthDate` key (with the
earlier mandatory fields well-shaped) fails with exactly
`MissingField("birthDate")` — an inspectable `Except.error` value, not a
fault or a silent default. -/
theorem person_missing_birthDate (i rt : String) (names : List HumanName) :
    Person.decode (.obj [("id", .str i), ("resourceType", .str rt),
        ("name", .arr (names.map HumanName.encode))])
      = .error (.missingField "birthDate") := by
  simp [Person.decode, asFields, reqOf, reqField, optOf, getField, asStr,
    bind, Except.bind,
    listOf_encode HumanName.encode HumanName.decode HumanName_roundtrip]

/-- Closed instance of `person_missing_birthDate` at a concrete input. -/
theorem person_missing_birthDate_witness :
    Person.decode (.obj [("id", .str "p1"), ("resourceType", .str "Person"),
        ("name", .arr [])])
      = .error (.missingField "birthDate") :=
  person_missing_birthDate "p1" "Person" []

/-- C5: decoding `{"use": "spouse"}` into a HumanName's `use` field fails
with `UnknownEnumTag`; generally, any unrecognized tag for an enum-valued
field yields `UnknownEnumTag`, never a default (first conjunct: at the
shared enum decoder; second conjunct: through HumanName with any tag outside
the six recognized ones). -/
theorem unknown_enum_tag_fails :
    (∀ (α : Type) (field : String) (ft : String → Option α) (tag : String),
        ft tag = none →
        decodeEnum field ft (.str tag) = .error (.unknownEnumTag field tag)) ∧
    (∀ tag : String,
        tag ∉ ["official", "usual", "nickname", "anonymous", "old", "maiden"] →
        HumanName.decode (.obj [("family", .str "Doe"), ("given", .arr []),
            ("use", .str tag)])
          = .error (.unknownEnumTag "use" tag)) := by
  constructor
  · intro α field ft tag h
    simp [decodeEnum, h]
  · intro tag h
    simp only [List.mem_cons, List.not_mem_nil, or_false, not_or] at h
    obtain ⟨h1, h2, h3, h4, h5, h6⟩ := h
    simp [HumanName.decode, asFields, reqOf, reqField, optOf, getField, asStr,
      decodeStrList, listOf, asElems, decodeList, NameUse.decode, decodeEnum,
      NameUse.fromTag, h1, h2, h3, h4, h5, h6, bind, Except.bind, Except.map,
      pure, Except.pure]

/-- Closed instance of `unknown_enum_tag_fails` at the spec's concrete
input tag `"spouse"`. -/
theorem unknown_enum_tag_fails_witness :
    HumanName.decode (.obj [("family", .str "Doe"), ("given", .arr []),
        ("use", .str "spouse")])
      = .error (.unknownEnumTag "use" "spouse") :=
  unknown_enum_tag_fails.2 "spouse" (by decide)

/-- C6 counterexample: the claim "every enum-valued field — including
ModalityCode and Interpretation — encodes to and decodes from its lowercase
string tag" is false: `ModalityCode::CT` encodes to the uppercase tag
`"CT"`, and the lowercase tags `"ct"` / `"n"` are rejected by the decoders
(`common.rs` `ModalityCode` and `lab_report.rs` `Interpretation` carry no
`rename_all = "lowercase"` attribute). -/
theorem modality_interpretation_tags_not_lowercase :
    ModalityCode.encode ModalityCode.CT = .str "CT" ∧
    ModalityCode.CT.tag ≠ "ct" ∧
    ModalityCode.decode "code" (.str "ct") = .error (.unknownEnumTag "code" "ct") ∧
    Interpretation.encode Interpretation.N = .str "N" ∧
    Interpretation.decode "interpretation" (.str "n")
      = .error (.unknownEnumTag "interpretation" "n") :=
  ⟨rfl, by decide, rfl, rfl, rfl⟩

/-- C6 (amended): the enums with `rename_all = "lowercase"` (NameUse,
ContactSystem, ContactUse, Gender, Sex, RelationToProband) encode to and
decode from their lowercase string tags, while ModalityCode and
Interpretation encode to and decode from their verbatim (uppercase) variant
names `CT,MR,US,XR,PT` and `N,L,H,A`. -/
theorem enum_wire_tags :
    (∀ x : NameUse, NameUse.encode x = .str x.tag ∧
        ∀ f, NameUse.decode f (NameUse.encode x) = .ok x) ∧
    (∀ x : ContactSystem, ContactSystem.encode x = .str x.tag ∧
        ∀ f, ContactSystem.decode f (ContactSystem.encode x) = .ok x) ∧
    (∀ x : ContactUse, ContactUse.encode x = .str x.tag ∧
        ∀ f, ContactUse.decode f (ContactUse.encode x) = .ok x) ∧
    (∀ x : Gender, Gender.encode x = .str x.tag ∧
        ∀ f, Gender.decode f (Gender.encode x) = .ok x) ∧
    (∀ x : Sex, Sex.encode x = .str x.tag ∧
        ∀ f, Sex.decode f (Sex.encode x) = .ok x) ∧
    (∀ x : RelationToProband, RelationToProband.encode x = .str x.tag ∧
        ∀ f, RelationToProband.decode f (RelationToProband.encode x) = .ok x) ∧
    (∀ x : ModalityCode, ModalityCode.encode x = .str x.tag ∧
        ∀ f, ModalityCode.decode f (ModalityCode.encode x) = .ok x) ∧
    (∀ x : Interpretation, Interpretation.encode x = .str x.tag ∧
        ∀ f, Interpretation.decode f (Interpretation.encode x) = .ok x) ∧
    (NameUse.Official.tag = "official" ∧ NameUse.Usual.tag = "usual" ∧
     NameUse.Nickname.tag = "nickname" ∧ NameUse.Anonymous.tag = "anonymous" ∧
     NameUse.Old.tag = "old" ∧ NameUse.Maiden.tag = "maiden" ∧
     ContactSystem.Phone.tag = "phone" ∧ ContactSystem.Email.tag = "email" ∧
     ContactUse.Home.tag = "home" ∧ ContactUse.Work.tag = "work" ∧
     ContactUse.Mobile.tag = "mobile" ∧
     Gender.Male.tag = "male" ∧ Gender.Female.tag = "female" ∧
     Gender.Other.tag = "other" ∧ Gender.Unknown.tag = "unknown" ∧
     Sex.Male.tag = "male" ∧ Sex.Female.tag = "female" ∧
     Sex.Other.tag = "other" ∧ Sex.Unknown.tag = "unknown" ∧
     RelationToProband.Self_.tag = "self" ∧
     RelationToProband.Mother.tag = "mother" ∧
     RelationToProband.Father.tag = "father" ∧
     RelationToProband.Sibling.tag = "sibling" ∧
     RelationToProband.Child.tag = "child" ∧
     RelationToProband.Grandparent.tag = "grandparent" ∧
     RelationToProband.Grandchild.tag = "grandchild" ∧
     RelationToProband.Aunt.tag = "aunt" ∧
     RelationToProband.Uncle.tag = "uncle" ∧
     RelationToProband.Cousin.tag = "cousin" ∧
     RelationToProband.Other.tag = "other") ∧
    (ModalityCode.CT.tag = "CT" ∧ ModalityCode.MR.tag = "MR" ∧
     ModalityCode.US.tag = "US" ∧ ModalityCode.XR.tag = "XR" ∧
     ModalityCode.PT.tag = "PT" ∧
     Interpretation.N.tag = "N" ∧ Interpretation.L.tag = "L" ∧
     Interpretation.H.tag = "H" ∧ Interpretation.A.tag = "A") := by
  refine ⟨?_, ?_, ?_, ?_, ?_, ?_, ?_, ?_, ?_, ?_⟩
  · intro x; exact ⟨rfl, fun f => NameUse_decode_encode f x⟩
  · intro x; exact ⟨rfl, fun f => ContactSystem_decode_encode f x⟩
  · intro x; exact ⟨rfl, fun f => ContactUse_decode_encode f x⟩
  · intro x; exact ⟨rfl, fun f => Gender_decode_encode f x⟩
  · intro x; exact ⟨rfl, fun f => Sex_decode_encode f x⟩
  · intro x; exact ⟨rfl, fun f => RelationToProband_decode_encode f x⟩
  · intro x; exact ⟨rfl, fun f => ModalityCode_decode_encode f x⟩
  · intro x; exact ⟨rfl, fun f => Interpretation_decode_encode f x⟩
  · exact ⟨rfl, rfl, rfl, rfl, rfl, rfl, rfl, rfl, rfl, rfl, rfl, rfl, rfl, rfl,
      rfl, rfl, rfl, rfl, rfl, rfl, rfl, rfl, rfl, rfl, rfl, rfl, rfl, rfl, rfl, rfl⟩
  · exact ⟨rfl, rfl, rfl, rfl, rfl, rfl, rfl, rfl, rfl⟩

/-- C7: encoding a value whose optional field is absent never emits that
field's key (no explicit null either — the key is simply not there), and
decoding an input without the key succeeds with the absent value.  First
two conjuncts: at the shared combinators every optional field decodes
absence to `none` and encodes `none` to no key at all; then field-by-field
for `Address` and `ImagingReport`, plus concrete decodes of key-free
inputs. -/
theorem optional_field_omission :
    (∀ (α : Type) (dec : Json → Except DecodeError α)
        (kvs : List (String × Json)) (k : String),
        getField kvs k = none → optOf dec kvs k = .ok none) ∧
    (∀ k : String, optField k none = []) ∧
    (∀ x : Address,
        (x.line = none → "line" ∉ (Address.encode x).keys) ∧
        (x.city = none → "city" ∉ (Address.encode x).keys) ∧
        (x.state = none → "state" ∉ (Address.encode x).keys) ∧
        (x.postal_code = none → "postalCode" ∉ (Address.encode x).keys) ∧
        (x.country = none → "country" ∉ (Address.encode x).keys)) ∧
    (∀ x : ImagingReport,
        (x.study_instance_uid = none →
            "studyInstanceUid" ∉ (ImagingReport.encode x).keys) ∧
        (x.performer = none → "performer" ∉ (ImagingReport.encode x).keys) ∧
        (x.findings = none → "findings" ∉ (ImagingReport.encode x).keys) ∧
        (x.impression = none → "impression" ∉ (ImagingReport.encode x).keys) ∧
        (x.radiation_dose = none →
            "radiationDose" ∉ (ImagingReport.encode x).keys) ∧
        (x.attachments = none → "attachments" ∉ (ImagingReport.encode x).keys)) ∧
    (Address.decode (.obj []) = .ok ⟨none, none, none, none, none⟩) ∧
    (∀ (i p : String) (m : Modality) (b : Coding) (r : DateTimeUtc),
        ImagingReport.decode (.obj [("id", .str i), ("patientId", .str p),
            ("modality", Modality.encode m), ("bodySite", Coding.encode b),
            ("reportedAt", DateTimeUtc.encode r)])
          = .ok ⟨i, p, m, b, r, none, none, none, none, none, none⟩) := by
  refine ⟨?_, ?_, ?_, ?_, ?_, ?_⟩
  · intro α dec kvs k h
    simp [optOf, h]
  · intro k
    rfl
  · intro x
    refine ⟨fun h => ?_, fun h => ?_, fun h => ?_, fun h => ?_, fun h => ?_⟩ <;>
      simp [Address.encode, Json.keys, List.map_append, List.mem_append,
        mem_keys_optField, h, pair_notMem_optField, pair_notMem_optField_none]
  · intro x
    refine ⟨fun h => ?_, fun h => ?_, fun h => ?_, fun h => ?_, fun h => ?_,
      fun h => ?_⟩ <;>
      simp [ImagingReport.encode, Json.keys, List.map_append, List.mem_append,
        mem_keys_optField, h, pair_notMem_optField, pair_notMem_optField_none]
  · rfl
  · intro i p m b r
    simp [ImagingReport.decode, asFields, reqOf, reqField, optOf, getField,
      asStr, DateTimeUtc.decode, DateTimeUtc.encode, bind, Except.bind, pure,
      Except.pure, Modality_roundtrip, Coding_roundtrip]

/-- Closed instance of `optional_field_omission`: an all-absent Address
encodes with no `line` key. -/
theorem optional_field_omission_witness :
    "line" ∉ (Address.encode ⟨none, none, none, none, none⟩).keys :=
  (optional_field_omission.2.2.1 ⟨none, none, none, none, none⟩).1 rfl

/-- C8: for every entity type, unknown extra keys in the input are ignored:
appending any fields whose keys are none of the entity decoders' known wire
keys leaves the decoding result unchanged (so an input with all mandatory
fields still decodes successfully). -/
theorem unknown_keys_ignored (kvs extra : List (String × Json))
    (h : ∀ p ∈ extra, p.1 ∉ strictEntityKeys) :
    Person.decode (.obj (kvs ++ extra)) = Person.decode (.obj kvs) ∧
    LabReport.decode (.obj (kvs ++ extra)) = LabReport.decode (.obj kvs) ∧
    ImagingReport.decode (.obj (kvs ++ extra)) = ImagingReport.decode (.obj kvs) ∧
    MedicationRecord.decode (.obj (kvs ++ extra))
      = MedicationRecord.decode (.obj kvs) ∧
    FamilyHealthTree.decode (.obj (kvs ++ extra))
      = FamilyHealthTree.decode (.obj kvs) := by
  have hf : ∀ k, k ∈ strictEntityKeys → ∀ p ∈ extra, p.1 ≠ k := by
    intro k hk p hp heq
    exact h p hp (heq ▸ hk)
  have hr : ∀ k, k ∈ strictEntityKeys →
      ∀ (α : Type) (dec : Json → Except DecodeError α),
        reqOf dec (kvs ++ extra) k = reqOf dec kvs k :=
    fun k hk α dec => reqOf_append_fresh dec kvs extra k (hf k hk)
  have ho : ∀ k, k ∈ strictEntityKeys →
      ∀ (α : Type) (dec : Json → Except DecodeError α),
        optOf dec (kvs ++ extra) k = optOf dec kvs k :=
    fun k hk α dec => optOf_append_fresh dec kvs extra k (hf k hk)
  have r01 := hr "id" (by decide)
  have r02 := hr "resourceType" (by decide)
  have r03 := hr "name" (by decide)
  have r04 := hr "birthDate" (by decide)
  have r05 := hr "patientId" (by decide)
  have r06 := hr "issuedAt" (by decide)
  have r07 := hr "results" (by decide)
  have r08 := hr "modality" (by decide)
  have r09 := hr "bodySite" (by decide)
  have r10 := hr "reportedAt" (by decide)
  have r11 := hr "medication" (by decide)
  have r12 := hr "dosage" (by decide)
  have r13 := hr "route" (by decide)
  have r14 := hr "startDate" (by decide)
  have r15 := hr "probandId" (by decide)
  have r16 := hr "members" (by decide)
  have o01 := ho "identifier" (by decide)
  have o02 := ho "gender" (by decide)
  have o03 := ho "telecom" (by decide)
  have o04 := ho "address" (by decide)
  have o05 := ho "maritalStatus" (by decide)
  have o06 := ho "language" (by decide)
  have o07 := ho "clinicalSummary" (by decide)
  have o08 := ho "facility" (by decide)
  have o09 := ho "panel" (by decide)
  have o10 := ho "specimen" (by decide)
  have o11 := ho "studyInstanceUid" (by decide)
  have o12 := ho "performer" (by decide)
  have o13 := ho "findings" (by decide)
  have o14 := ho "impression" (by decide)
  have o15 := ho "radiationDose" (by decide)
  have o16 := ho "attachments" (by decide)
  have o17 := ho "form" (by decide)
  have o18 := ho "frequency" (by decide)
  have o19 := ho "durationDays" (by decide)
  have o20 := ho "endDate" (by decide)
  have o21 := ho "indication" (by decide)
  have o22 := ho "instructions" (by decide)
  refine ⟨?_, ?_, ?_, ?_, ?_⟩ <;>
    simp only [Person.decode, LabReport.decode, ImagingReport.decode,
      MedicationRecord.decode, FamilyHealthTree.decode, asFields, bind,
      Except.bind, r01, r02, r03, r04, r05, r06, r07, r08, r09, r10, r11, r12,
      r13, r14, r15, r16, o01, o02, o03, o04, o05, o06, o07, o08, o09, o10,
      o11, o12, o13, o14, o15, o16, o17, o18, o19, o20, o21, o22]

/-- Closed instance of `unknown_keys_ignored`: a minimal FamilyHealthTree
input decodes identically with an unknown extra key present, and that
result is a success. -/
theorem unknown_keys_ignored_witness :
    FamilyHealthTree.decode (.obj ([("probandId", .str "p1"), ("members", .arr [])]
        ++ [("comment", .str "extra")]))
      = FamilyHealthTree.decode (.obj [("probandId", .str "p1"), ("members", .arr [])]) ∧
    FamilyHealthTree.decode (.obj [("probandId", .str "p1"), ("members", .arr [])])
      = .ok ⟨"p1", []⟩ :=
  ⟨(unknown_keys_ignored [("probandId", .str "p1"), ("members", .arr [])]
      [("comment", .str "extra")] (by decide)).2.2.2.2, rfl⟩

/-- C9: the crate-root (legacy `lib.rs`) `HumanName` and `ContactPoint` —
the definitions that shadow the glob-re-exported strict ones by Rust's
item-over-glob precedence — encode their name-use field under the literal
wire key `"use_"` (the Rust field `use_` carries no serde rename), and never
under the documented key `"use"`. -/
theorem legacy_use_underscore_key :
    (∀ (x : Legacy.HumanName) (u : String), x.use_ = some u →
        "use_" ∈ (Legacy.HumanName.encode x).keys) ∧
    (∀ x : Legacy.HumanName, "use" ∉ (Legacy.HumanName.encode x).keys) ∧
    (∀ (x : Legacy.ContactPoint) (u : String), x.use_ = some u →
        "use_" ∈ (Legacy.ContactPoint.encode x).keys) ∧
    (∀ x : Legacy.ContactPoint, "use" ∉ (Legacy.ContactPoint.encode x).keys) := by
  refine ⟨?_, ?_, ?_, ?_⟩
  · intro x u h
    simp [Legacy.HumanName.encode, Json.keys, List.map_append, List.mem_append,
      mem_keys_optField, h, optField]
  · intro x
    simp [Legacy.HumanName.encode, Json.keys, List.map_append, List.mem_append,
      mem_keys_optField, pair_notMem_optField, pair_notMem_optField_none]
  · intro x u h
    simp [Legacy.ContactPoint.encode, Json.keys, List.map_append,
      List.mem_append, mem_keys_optField, h, optField]
  · intro x
    simp [Legacy.ContactPoint.encode, Json.keys, List.map_append,
      List.mem_append, mem_keys_optField, pair_notMem_optField,
      pair_notMem_optField_none]

/-- Closed instance of `legacy_use_underscore_key` at a concrete legacy
HumanName with a present name-use value. -/
theorem legacy_use_underscore_key_witness :
    "use_" ∈ (Legacy.HumanName.encode
        ⟨"Doe", ["Jane"], some "official", none, none⟩).keys ∧
    "use" ∉ (Legacy.HumanName.encode
        ⟨"Doe", ["Jane"], some "official", none, none⟩).keys :=
  ⟨legacy_use_underscore_key.1 ⟨"Doe", ["Jane"], some "official", none, none⟩
      "official" rfl,
   legacy_use_underscore_key.2.1 ⟨"Doe", ["Jane"], some "official", none, none⟩⟩

/-- C10: the strict `Person` decoder accepts any string for `resourceType`
(the constant `"Person"` is not enforced — `"Banana"` decodes fine), while
the legacy `HealthPerson` defaults `resourceType` to `"Person"` when the
key is absent instead of failing. -/
theorem resource_type_not_enforced :
    (∀ (s i : String) (d : NaiveDate),
        Person.decode (.obj [("id", .str i), ("resourceType", .str s),
            ("name", .arr []), ("birthDate", NaiveDate.encode d)])
          = .ok ⟨i, s, [], d, none, none, none, none, none, none, none⟩) ∧
    (Person.decode (.obj [("id", .str "p1"), ("resourceType", .str "Banana"),
        ("name", .arr []), ("birthDate", .str "2000-01-01")])
      = .ok ⟨"p1", "Banana", [], ⟨"2000-01-01"⟩, none, none, none, none, none,
             none, none⟩) ∧
    (∀ (i bd : String),
        Legacy.HealthPerson.decode (.obj [("id", .str i), ("name", .arr []),
            ("birthDate", .str bd)])
          = .ok ⟨i, [], bd, "Person", none, none, none, none, none, none, none⟩) := by
  refine ⟨?_, ?_, ?_⟩
  · intro s i d
    simp [Person.decode, asFields, reqOf, reqField, optOf, getField, asStr,
      NaiveDate.encode, NaiveDate.decode, listOf, asElems, decodeList, bind,
      Except.bind, pure, Except.pure]
  · rfl
  · intro i bd
    simp [Legacy.HealthPerson.decode, Legacy.default_resource_type, asFields,
      reqOf, reqField, optOf, getField, asStr, listOf, asElems, decodeList,
      bind, Except.bind, pure, Except.pure]
